import Mathlib

/-!
Verification development for the NodeGrain granular-synthesis engine
(`src/cpp/src/grain_engine.cpp`, `src/cpp/src/param_smoother.h` and the
engine header).  The C++ engine is shallowly embedded: float arithmetic is
modelled by exact rationals `ℚ` (reals `ℝ` where the source evaluates
transcendental functions), machine `uint32_t` state by `Nat` reduced mod
`2^32`, and the fixed grain pool by a list of grain records.  Calls into
`std::sin`, `std::cos`, `std::exp` and `std::pow` made by `spawnGrain`
and the LFO are kept abstract: functions that consume their results take
the evaluated value (or the whole spawn action) as an explicit argument.
-/

namespace NodeGrain

/-- Grain record, mirroring `struct Grain` in the repository's `grain.h`
(inlined at the end of `src/components/WaveformDisplay.tsx`). -/
structure Grain where
  active : Bool
  position : ℚ
  playbackRate : ℚ
  samplesRemaining : Int
  totalSamples : Int
  envPhase : ℚ
  envIncrement : ℚ
  attackRatio : ℚ
  releaseRatio : ℚ
  exponentialEnv : Bool
  panL : ℚ
  panR : ℚ
  normPos : ℚ
  duration : ℚ
  pan : ℚ
  deriving DecidableEq

/-- Constant `MAX_GRAINS`, the compile-time pool capacity from `grain.h`. -/
def MAX_GRAINS : Nat := 128

/-- Function `GrainEngine::computeEnvelope` (grain_engine.cpp lines 315-353),
as a function of the grain fields it reads and the envelope phase. -/
def computeEnvelope (exponentialEnv : Bool) (attackRatio releaseRatio phase : ℚ) : ℚ :=
  let attackEnd := attackRatio
  let releaseStart := 1 - releaseRatio
  let fadeRatio : ℚ := 1/100
  let epsilon : ℚ := 1/1000000
  if phase < fadeRatio then
    phase / fadeRatio * (1/1000)
  else if phase < attackEnd then
    let attackDuration := attackEnd - fadeRatio
    if attackDuration < epsilon then
      1/1000
    else
      let t := (phase - fadeRatio) / attackDuration
      if exponentialEnv then 1/1000 + t * t * (1 - 1/1000)
      else 1/1000 + t * (1 - 1/1000)
  else if phase < releaseStart then
    1
  else
    if releaseRatio < epsilon then 0
    else
      let t := min 1 ((phase - releaseStart) / releaseRatio)
      if exponentialEnv then (1 - t) * (1 - t)
      else 1 - t

/-- The sustain branch of `computeEnvelope` is taken at `phase` (the chain
of `if` guards in grain_engine.cpp lines 324-339 falls through to
`return 1.0f`). -/
def sustainBranch (attackRatio releaseRatio phase : ℚ) : Prop :=
  ¬ (phase < 1/100) ∧ ¬ (phase < attackRatio) ∧ phase < 1 - releaseRatio

instance (a r p : ℚ) : Decidable (sustainBranch a r p) := by
  unfold sustainBranch; infer_instance

/-- Function `GrainEngine::getModulated` (grain_engine.cpp lines 355-360).
`lfoValue` abstracts the cached `currentLfoValue_`. -/
def getModulated (lfoTargetMask : Nat) (lfoAmount lfoValue : ℚ)
    (base : ℚ) (targetBit : Nat) (scale minVal maxVal : ℚ) : ℚ :=
  if lfoTargetMask &&& targetBit = 0 then base
  else max minVal (min maxVal (base + lfoValue * lfoAmount * scale))

/-- C++ `static_cast<int>` of a finite value: truncation toward zero. -/
def ratTrunc (x : ℚ) : Int :=
  if x < 0 then -(Int.floor (-x)) else Int.floor x

/-- Grain duration in samples, from `GrainEngine::spawnGrain`
(grain_engine.cpp lines 199-202): clamp to 10 ms, cast the product to
`int`, force at least one sample. -/
def grainTotalSamples (grainSize sampleRate : ℚ) : Int :=
  let grainDuration := max (1/100) grainSize
  let totalSamples := ratTrunc (grainDuration * sampleRate)
  if totalSamples < 1 then 1 else totalSamples

/-- The spec's wording for the same quantity ("samplesTotal =
max(1, round(grainSize · sampleRate))", round to nearest): written from
the spec, to be compared with `grainTotalSamples` from the source. -/
def samplesTotalSpec (grainSize sampleRate : ℚ) : Int :=
  max 1 (round (max (1/100) grainSize * sampleRate))

/-- FM rate deviation from `GrainEngine::spawnGrain` (grain_engine.cpp
lines 216-219).  `sinVal` abstracts `sin(currentTime * fmFreq)`. -/
def fmModOf (fmAmount sinVal : ℚ) : ℚ :=
  if 0 < fmAmount then sinVal * (fmAmount * (1/100)) else 0

/-- Final playback rate from `GrainEngine::spawnGrain` (grain_engine.cpp
lines 220-221): `finalRate = max(0.1, |rate + fmMod|)`, negated when the
grain is reversed. -/
def finalRateOf (rate fmMod : ℚ) (reversed : Bool) : ℚ :=
  let f := max (1/10) |rate + fmMod|
  if reversed then -f else f

/-- Function `GrainEngine::randomUint` (grain_engine.cpp lines 425-430): the
xorshift32 PRNG on a 32-bit state. -/
def xorshift32 (s : Nat) : Nat :=
  let a := (s ^^^ (s <<< 13)) % 2 ^ 32
  let b := (a ^^^ (a >>> 17)) % 2 ^ 32
  (b ^^^ (b <<< 5)) % 2 ^ 32

/-- Function `GrainEngine::randomFloat` (grain_engine.cpp lines 432-434): advance
the PRNG and scale into [0, 1). -/
def randomFloat (s : Nat) : ℚ × Nat :=
  let s' := xorshift32 s
  ((s' : ℚ) / 4294967296, s')

/-- Record `struct EngineParams` from the engine header, with the C++ default
member initializers reproduced by `defaultEngineParams` below. -/
structure EngineParams where
  grainSize : ℚ
  density : ℚ
  spread : ℚ
  position : ℚ
  grainReversalChance : ℚ
  pan : ℚ
  panSpread : ℚ
  pitch : ℚ
  detune : ℚ
  fmFreq : ℚ
  fmAmount : ℚ
  attack : ℚ
  release : ℚ
  envelopeCurve : Int
  lfoRate : ℚ
  lfoAmount : ℚ
  lfoShape : Int
  lfoTargetMask : Nat
  volume : ℚ
  filterFreq : ℚ
  filterRes : ℚ
  distAmount : ℚ
  delayTime : ℚ
  delayFeedback : ℚ
  delayMix : ℚ
  reverbMix : ℚ
  reverbDecay : ℚ
  deriving DecidableEq

/-- Default `EngineParams`, matching the header's initializers. -/
def defaultEngineParams : EngineParams where
  grainSize := 3/10
  density := 15/100
  spread := 0
  position := 0
  grainReversalChance := 0
  pan := 0
  panSpread := 0
  pitch := 0
  detune := 0
  fmFreq := 0
  fmAmount := 0
  attack := 1/2
  release := 1/2
  envelopeCurve := 0
  lfoRate := 1
  lfoAmount := 0
  lfoShape := 0
  lfoTargetMask := 0
  volume := 8/10
  filterFreq := 20000
  filterRes := 0
  distAmount := 0
  delayTime := 3/10
  delayFeedback := 3/10
  delayMix := 0
  reverbMix := 0
  reverbDecay := 2

/-- One-pole parameter smoother state (`class ParamSmoother` in
`src/cpp/src/param_smoother.h`), generic in the scalar type so that the
same recurrence serves the exact-real analysis and the executable
rational engine model. -/
structure ParamSmoother (α : Type) where
  current : α
  target : α
  coeff : α
  deriving DecidableEq

/-- Method `ParamSmoother::process` (param_smoother.h lines 37-40):
`current += (target - current) * coeff`. -/
def smootherProcess {α : Type} [Ring α] (s : ParamSmoother α) : ParamSmoother α :=
  { s with current := s.current + (s.target - s.current) * s.coeff }

/-- Method `ParamSmoother::setImmediate` (param_smoother.h lines 26-29). -/
def smootherSetImmediate {α : Type} (v : α) (s : ParamSmoother α) : ParamSmoother α :=
  { s with current := v, target := v }

/-- Method `ParamSmoother::setTarget` (param_smoother.h lines 32-34). -/
def smootherSetTarget {α : Type} (v : α) (s : ParamSmoother α) : ParamSmoother α :=
  { s with target := v }

/-- Iterated smoothing: `n` consecutive calls to `ParamSmoother::process`. -/
def smootherIterate {α : Type} [Ring α] : Nat → ParamSmoother α → ParamSmoother α
  | 0, s => s
  | n + 1, s => smootherIterate n (smootherProcess s)

/-- Grain visualization event (`struct GrainEvent` in the engine header). -/
structure GrainEvent where
  normPos : ℚ
  duration : ℚ
  pan : ℚ
  deriving DecidableEq

/-- Constant `MAX_GRAIN_EVENTS` from the engine header. -/
def MAX_GRAIN_EVENTS : Nat := 64

/-- The private state of `class GrainEngine` (engine header, member list),
restricted to the members the modelled operations read or write. -/
structure EngineState where
  sampleRate : ℚ
  invSampleRate : ℚ
  isPlaying : Bool
  currentTime : ℚ
  nextGrainTime : ℚ
  sampleBuffer : Option (List ℚ)
  sampleBufferLength : Int
  sampleBufferChannels : Int
  grains : List Grain
  currentLfoValue : ℚ
  params : EngineParams
  smPitch : ParamSmoother ℚ
  smPosition : ParamSmoother ℚ
  smGrainSize : ParamSmoother ℚ
  smPan : ParamSmoother ℚ
  smVolume : ParamSmoother ℚ
  isFrozen : Bool
  frozenPosition : ℚ
  isDrifting : Bool
  driftPosition : ℚ
  driftBasePosition : ℚ
  driftSpeed : ℚ
  driftReturnTendency : ℚ
  grainEvents : List GrainEvent
  rngState : Nat
  deriving DecidableEq

/-- A `Grain` slot as zero-initialized by the engine constructor's
`memset` (grain_engine.cpp line 11). -/
def zeroGrain : Grain where
  active := false
  position := 0
  playbackRate := 0
  samplesRemaining := 0
  totalSamples := 0
  envPhase := 0
  envIncrement := 0
  attackRatio := 0
  releaseRatio := 0
  exponentialEnv := false
  panL := 0
  panR := 0
  normPos := 0
  duration := 0
  pan := 0

/-- Engine state right after construction: the C++ in-class member
initializers plus the constructor's `memset`s. -/
def initialEngineState : EngineState where
  sampleRate := 48000
  invSampleRate := 1/48000
  isPlaying := false
  currentTime := 0
  nextGrainTime := 0
  sampleBuffer := none
  sampleBufferLength := 0
  sampleBufferChannels := 1
  grains := List.replicate MAX_GRAINS zeroGrain
  currentLfoValue := 0
  params := defaultEngineParams
  smPitch := ⟨0, 0, 1⟩
  smPosition := ⟨0, 0, 1⟩
  smGrainSize := ⟨0, 0, 1⟩
  smPan := ⟨0, 0, 1⟩
  smVolume := ⟨0, 0, 1⟩
  isFrozen := false
  frozenPosition := 0
  isDrifting := false
  driftPosition := 1/2
  driftBasePosition := 1/2
  driftSpeed := 1/2
  driftReturnTendency := 3/10
  grainEvents := []
  rngState := 12345

/-- Buffer access `sampleBuffer_[idx]`; every use below is guarded by the
same bounds checks the source performs, so the default is never read on
those paths. -/
def bufAt (buf : List ℚ) (i : Int) : ℚ := buf.getD i.toNat 0

/-- Function `GrainEngine::processGrain` (grain_engine.cpp lines 280-313): one
output sample of one grain — interpolated read, envelope, pan, advance,
lifecycle. -/
def processGrain (buf : List ℚ) (bufLen : Int) (g : Grain) : ℚ × ℚ × Grain :=
  let pos := g.position
  let sample : ℚ :=
    if 0 ≤ pos ∧ pos < (bufLen - 1 : ℚ) then
      let idx := ratTrunc pos
      let frac := pos - (idx : ℚ)
      bufAt buf idx * (1 - frac) + bufAt buf (idx + 1) * frac
    else if 0 ≤ pos ∧ pos < (bufLen : ℚ) then
      bufAt buf (ratTrunc pos)
    else 0
  let env := computeEnvelope g.exponentialEnv g.attackRatio g.releaseRatio g.envPhase
  let s := sample * env
  let outL := s * g.panL
  let outR := s * g.panR
  let position' := g.position + g.playbackRate
  let remaining' := g.samplesRemaining - 1
  let active' : Bool :=
    ¬ (remaining' ≤ 0 ∨ position' < 0 ∨ (bufLen : ℚ) ≤ position')
  (outL, outR,
   { g with
      position := position'
      envPhase := g.envPhase + g.envIncrement
      samplesRemaining := remaining'
      active := active' })

/-- The inner grain loop of `GrainEngine::process` (grain_engine.cpp
lines 126-142) for one output frame: inactive slots are skipped, active
slots contribute and are advanced. -/
def mixFrame (buf : List ℚ) (bufLen : Int) : List Grain → ℚ × ℚ × List Grain
  | [] => (0, 0, [])
  | g :: rest =>
    if g.active then
      let r1 := processGrain buf bufLen g
      let r2 := mixFrame buf bufLen rest
      (r1.1 + r2.1, r1.2.1 + r2.2.1, r1.2.2 :: r2.2.2)
    else
      let r2 := mixFrame buf bufLen rest
      (r2.1, r2.2.1, g :: r2.2.2)

/-- The per-frame loop of `GrainEngine::process`, producing the two
output channels front to back. -/
def mixFrames (buf : List ℚ) (bufLen : Int) :
    Nat → List Grain → List ℚ × List ℚ × List Grain
  | 0, gs => ([], [], gs)
  | n + 1, gs =>
    let r1 := mixFrame buf bufLen gs
    let r2 := mixFrames buf bufLen n r1.2.2
    (r1.1 :: r2.1, r1.2.1 :: r2.2.1, r2.2.2)

/-- Modulated grain-spawn period, exactly the `getModulated` call in the
scheduling loop of `GrainEngine::process` (grain_engine.cpp lines
120-121): target bit `LFO_DENSITY = 1 <<< 1`, scale `ModScales::density
= 0.1`, clamp `[0.005, 10.0]`. -/
def modulatedDensity (st : EngineState) : ℚ :=
  getModulated st.params.lfoTargetMask st.params.lfoAmount st.currentLfoValue
    st.params.density 2 (1/10) (1/200) 10

/-- The grain-scheduling `while` loop of `GrainEngine::process`
(grain_engine.cpp lines 116-123), with explicit fuel: `none` means the
fuel ran out before `nextGrainTime` reached the block end.  `spawnFn`
abstracts `spawnGrain` (which touches only the pool, the event ring and
the PRNG, never the parameters or the cached LFO value). -/
def scheduleLoop (spawnFn : EngineState → EngineState) :
    Nat → ℚ → ℚ → EngineState → Option (ℚ × EngineState)
  | 0, next, blockEnd, st =>
    if next < blockEnd then none else some (next, st)
  | n + 1, next, blockEnd, st =>
    if next < blockEnd then
      let st' := spawnFn st
      scheduleLoop spawnFn n (next + modulatedDensity st') blockEnd st'
    else some (next, st)

/-- Function `GrainEngine::updateDrift` (grain_engine.cpp lines 362-373). -/
def updateDrift (st : EngineState) (deltaTimeSec : ℚ) : EngineState :=
  let r := randomFloat st.rngState
  let stepSize := st.driftSpeed * deltaTimeSec * (1/2)
  let randomStep := (r.1 - 1/2) * 2 * stepSize
  let distanceFromBase := st.driftBasePosition - st.driftPosition
  let returnForce := distanceFromBase * st.driftReturnTendency * deltaTimeSec * (1/2)
  { st with
      driftPosition := max 0 (min 1 (st.driftPosition + randomStep + returnForce))
      rngState := r.2 }

/-- Function `GrainEngine::process` (grain_engine.cpp lines 87-145).  `lfoVal`
abstracts `lfo_.getValue(currentTime_)` (a sine/triangle/square/saw
evaluation, transcendental in the sine case); `spawnFn` abstracts
`spawnGrain`; `fuel` bounds the scheduling loop, `none` meaning the loop
did not finish within the fuel. -/
def processBlock (lfoVal : ℚ) (spawnFn : EngineState → EngineState) (fuel : Nat)
    (st : EngineState) (numFrames : Nat) :
    Option (List ℚ × List ℚ × EngineState) :=
  if st.isPlaying = false ∨ st.sampleBuffer = none ∨ st.sampleBufferLength = 0 then
    some (List.replicate numFrames 0, List.replicate numFrames 0,
      { st with currentTime := st.currentTime + (numFrames : ℚ) * st.invSampleRate })
  else
    let st1 := { st with currentLfoValue := lfoVal }
    let st2 := { st1 with
      smPitch := smootherIterate numFrames st1.smPitch
      smPosition := smootherIterate numFrames st1.smPosition
      smGrainSize := smootherIterate numFrames st1.smGrainSize
      smPan := smootherIterate numFrames st1.smPan
      smVolume := smootherIterate numFrames st1.smVolume }
    let dt := (numFrames : ℚ) * st2.invSampleRate
    let st3 := if st2.isDrifting ∧ ¬ st2.isFrozen then updateDrift st2 dt else st2
    let blockEnd := st3.currentTime + dt
    match scheduleLoop spawnFn fuel st3.nextGrainTime blockEnd st3 with
    | none => none
    | some (next', st4) =>
      let buf := st4.sampleBuffer.getD []
      let r := mixFrames buf st4.sampleBufferLength numFrames st4.grains
      some (r.1, r.2.1,
        { st4 with
            nextGrainTime := next'
            grains := r.2.2
            currentTime := blockEnd })

/-! ### Grain-slot selection (`GrainEngine::spawnGrain`, lines 147-171) -/

/-- The slot-search loop of `GrainEngine::spawnGrain` (grain_engine.cpp
lines 149-163): scan for the first inactive slot (breaking on success)
while tracking the active slot with the strictly smallest
`samplesRemaining`.  Returns `(slot, oldestSlot, leastRemaining)` as at
loop exit, with `-1` meaning "not found" as in the source. -/
def scanPool : List Grain → Nat → Int → Int → Int × Int × Int
  | [], _, oldestSlot, leastRemaining => (-1, oldestSlot, leastRemaining)
  | g :: rest, i, oldestSlot, leastRemaining =>
    if g.active = false then ((i : Int), oldestSlot, leastRemaining)
    else if g.samplesRemaining < leastRemaining then
      scanPool rest (i + 1) (i : Int) g.samplesRemaining
    else
      scanPool rest (i + 1) oldestSlot leastRemaining

/-- Constant `INT32_MAX`, the initial value of `leastRemaining`. -/
def INT32_MAX : Int := 2147483647

/-- Slot chosen by `spawnGrain` (grain_engine.cpp lines 149-169): the
first inactive slot if any, otherwise the tracked steal candidate;
`-1` if neither exists. -/
def chooseSlot (pool : List Grain) : Int :=
  let r := scanPool pool 0 (-1) INT32_MAX
  if r.1 < 0 then r.2.1 else r.1

/-- The pool effect of `GrainEngine::spawnGrain`: write the freshly
computed grain (whose numeric fields come from the modulated parameters
and PRNG draws, abstracted here as `g`) into the chosen slot with
`active = true` (grain_engine.cpp lines 166-262); bail out when no slot
was found. -/
def spawnIntoPool (pool : List Grain) (g : Grain) : List Grain :=
  let slot := chooseSlot pool
  if slot < 0 then pool
  else pool.set slot.toNat { g with active := true }

/-- Number of active grains in a pool. -/
def activeCount (pool : List Grain) : Nat :=
  (pool.filter (fun g => g.active)).length

/-! ### Control interface and deterministic run (claim C9) -/

/-- One call into the engine's public interface.  `process` carries the
frame count plus the fuel bound for the scheduling loop. -/
inductive EngineCmd where
  | init (sampleRate : ℚ)
  | setSampleBuffer (data : List ℚ) (channels : Int)
  | updateParams (p : EngineParams)
  | start
  | stop
  | setFrozen (frozen : Bool) (position : ℚ)
  | setDrift (enabled : Bool) (basePosition speed returnTendency : ℚ)
  | process (numFrames : Nat) (fuel : Nat)
  | clearGrainEvents
  deriving DecidableEq

/-- Apply one command, mirroring the corresponding `GrainEngine` method.
`lfoFn` abstracts `LFO::getValue` as a fixed function of the parameter
record and the engine time; `spawnFn` abstracts `spawnGrain`; `coeffFn`
abstracts the smoothing coefficient `1 - exp(-1/(sr*0.01))` computed in
`ParamSmoother::init` as a fixed function of the sample rate.  Returns
the next state and, for `process`, the produced output block. -/
def applyCmd (lfoFn : EngineParams → ℚ → ℚ) (spawnFn : EngineState → EngineState)
    (coeffFn : ℚ → ℚ) (st : EngineState) :
    EngineCmd → EngineState × Option (List ℚ × List ℚ)
  | .init sr =>
    let c := coeffFn sr
    ({ st with
        sampleRate := sr
        invSampleRate := 1 / sr
        currentTime := 0
        nextGrainTime := 0
        grains := st.grains.map (fun g => { g with active := false })
        grainEvents := []
        smPitch := smootherSetImmediate 0 { st.smPitch with coeff := c }
        smPosition := smootherSetImmediate 0 { st.smPosition with coeff := c }
        smGrainSize := smootherSetImmediate (1/10) { st.smGrainSize with coeff := c }
        smPan := smootherSetImmediate 0 { st.smPan with coeff := c }
        smVolume := smootherSetImmediate (8/10) { st.smVolume with coeff := c } },
     none)
  | .setSampleBuffer data channels =>
    ({ st with
        sampleBuffer := some data
        sampleBufferLength := (data.length : Int)
        sampleBufferChannels := channels },
     none)
  | .updateParams p =>
    ({ st with
        params := p
        smPitch := smootherSetTarget p.pitch st.smPitch
        smPosition := smootherSetTarget p.position st.smPosition
        smGrainSize := smootherSetTarget p.grainSize st.smGrainSize
        smPan := smootherSetTarget p.pan st.smPan
        smVolume := smootherSetTarget p.volume st.smVolume },
     none)
  | .start =>
    (if st.isPlaying then st
     else { st with isPlaying := true, nextGrainTime := st.currentTime },
     none)
  | .stop =>
    ({ st with
        isPlaying := false
        grains := st.grains.map (fun g => { g with active := false }) },
     none)
  | .setFrozen frozen position =>
    ({ st with
        isFrozen := frozen
        frozenPosition := if frozen then position else st.frozenPosition },
     none)
  | .setDrift enabled basePosition speed returnTendency =>
    (if enabled then
      { st with
          isDrifting := true
          driftBasePosition := basePosition
          driftPosition := basePosition
          driftSpeed := speed
          driftReturnTendency := returnTendency }
     else { st with isDrifting := false },
     none)
  | .process numFrames fuel =>
    match processBlock (lfoFn st.params st.currentTime) spawnFn fuel st numFrames with
    | none => (st, none)
    | some r => (r.2.2, some (r.1, r.2.1))
  | .clearGrainEvents => ({ st with grainEvents := [] }, none)

/-- Run a call history against the engine, collecting the produced audio
blocks in order. -/
def runEngine (lfoFn : EngineParams → ℚ → ℚ) (spawnFn : EngineState → EngineState)
    (coeffFn : ℚ → ℚ) :
    EngineState → List EngineCmd → EngineState × List (List ℚ × List ℚ)
  | st, [] => (st, [])
  | st, c :: cs =>
    let r := applyCmd lfoFn spawnFn coeffFn st c
    let rest := runEngine lfoFn spawnFn coeffFn r.1 cs
    (rest.1, match r.2 with | some o => o :: rest.2 | none => rest.2)

end NodeGrain

namespace NodeGrainReal

/-! ### Real-valued fragments: equal-power panning and the smoothing
coefficient, where the source evaluates `cos`, `sin` and `exp`. -/

open Real

/-- Pan angle from `GrainEngine::spawnGrain` (grain_engine.cpp line 246):
`(finalPan + 1) * 0.25 * π`. -/
noncomputable def panAngle (finalPan : ℝ) : ℝ := (finalPan + 1) * (1/4) * Real.pi

/-- Left equal-power gain `cos(panAngle)` (grain_engine.cpp line 247). -/
noncomputable def panGainL (finalPan : ℝ) : ℝ := Real.cos (panAngle finalPan)

/-- Right equal-power gain `sin(panAngle)` (grain_engine.cpp line 248). -/
noncomputable def panGainR (finalPan : ℝ) : ℝ := Real.sin (panAngle finalPan)

/-- Smoothing coefficient from `ParamSmoother::setSmoothTime`
(param_smoother.h lines 16-23): `1 - exp(-1/(sampleRate*ms*0.001))`
when both inputs are positive, else `1`. -/
noncomputable def smootherCoeff (sampleRate ms : ℝ) : ℝ :=
  if 0 < sampleRate ∧ 0 < ms then
    1 - Real.exp (-1 / (sampleRate * ms * (1/1000)))
  else 1

end NodeGrainReal

namespace NodeGrain

/-- Pointwise (epsilon-delta) continuity of the envelope in the phase argument at a point,
with the grain's shape and ratios fixed. -/
def envContinuousAt (b : Bool) (a r x : ℚ) : Prop :=
  ∀ ε : ℚ, 0 < ε → ∃ δ : ℚ, 0 < δ ∧
    ∀ p : ℚ, |p - x| < δ →
      |computeEnvelope b a r p - computeEnvelope b a r x| < ε

/-- Engine state exhibiting an unmodulated sub-floor density: the density
parameter is 0.001 s and the LFO target mask is empty (the defaults
except for `density`). -/
def cexDensityState : EngineState :=
  { initialEngineState with
      params := { defaultEngineParams with density := 1/1000 } }

/-- Engine state with the density LFO target bit set (mask = 2) and a
zero density parameter, exercising the clamp path of `getModulated`. -/
def witDensityState : EngineState :=
  { initialEngineState with
      params := { defaultEngineParams with density := 0, lfoTargetMask := 2 } }

/-- A mid-life active grain reading the start of the buffer in its
sustain region, hard-panned left. -/
def cexGrain : Grain where
  active := true
  position := 0
  playbackRate := 1
  samplesRemaining := 10
  totalSamples := 10
  envPhase := 1/2
  envIncrement := 1/10
  attackRatio := 1/5
  releaseRatio := 1/5
  exponentialEnv := false
  panL := 1
  panR := 0
  normPos := 0
  duration := 1/10
  pan := 0

/-- Engine state that is playing with a non-empty sample buffer but a
non-positive sample rate (as left by `init(-1)`), holding one active
grain: the silent-path guard of `process` does not cover it. -/
def cexRateState : EngineState :=
  { initialEngineState with
      sampleRate := -1
      invSampleRate := -1
      isPlaying := true
      sampleBuffer := some [1, 1]
      sampleBufferLength := 2
      grains := cexGrain :: List.replicate 127 zeroGrain }

/-! ## Shared helper lemmas -/

/-- Closed form of the smoother recurrence: `n` steps leave the target
and coefficient unchanged and contract `current - target` by
`(1 - coeff)^n`. -/
theorem smootherIterate_spec {α : Type} [CommRing α] (n : Nat) (s : ParamSmoother α) :
    (smootherIterate n s).target = s.target ∧
    (smootherIterate n s).coeff = s.coeff ∧
    (smootherIterate n s).current - s.target
      = (s.current - s.target) * (1 - s.coeff) ^ n := by
  induction n generalizing s with
  | zero => simp [smootherIterate]
  | succ n ih =>
    obtain ⟨h1, h2, h3⟩ := ih (smootherProcess s)
    refine ⟨by simpa [smootherProcess] using h1, by simpa [smootherProcess] using h2, ?_⟩
    show (smootherIterate n (smootherProcess s)).current - s.target = _
    have : (smootherProcess s).target = s.target := rfl
    rw [← this, h3]
    simp only [smootherProcess]
    ring

/-! ## Claim C4 — grain duration in samples -/

/-- Claim C4, counterexample: the source truncates
`grainDuration * sampleRate` toward zero (`static_cast<int>`), so at
`grainSize = 0.109`, `sampleRate = 100` it yields 10 grains of samples
while the spec's round-to-nearest formula yields 11. -/
theorem C4_counterexample :
    grainTotalSamples (109/1000) 100 = 10 ∧
    samplesTotalSpec (109/1000) 100 = 11 ∧
    grainTotalSamples (109/1000) 100 ≠ samplesTotalSpec (109/1000) 100 := by
  refine ⟨?_, ?_, ?_⟩ <;> norm_num [grainTotalSamples, samplesTotalSpec, ratTrunc, round_eq]

/-- Claim C4 as amended: for every nonnegative sample rate, the grain's
total sample count is `max(1, ⌊grainSize·sampleRate⌋)` with `grainSize`
clamped to at least 0.01 s — truncation toward zero (which on this
nonnegative product is the floor), not rounding to nearest. -/
theorem C4_total_samples (gs sr : ℚ) (hsr : 0 ≤ sr) :
    grainTotalSamples gs sr = max 1 ⌊max (1/100 : ℚ) gs * sr⌋ ∧
    1 ≤ grainTotalSamples gs sr := by
  have hx : (0:ℚ) ≤ max (1/100 : ℚ) gs * sr :=
    mul_nonneg (le_trans (by norm_num) (le_max_left _ _)) hsr
  simp only [grainTotalSamples, ratTrunc]
  rw [if_neg (not_lt.mpr hx)]
  constructor
  · split_ifs with h
    · exact (max_eq_left (le_of_lt h)).symm
    · exact (max_eq_right (not_lt.mp h)).symm
  · split_ifs with h
    · exact le_refl 1
    · exact not_lt.mp h

/-- Witness for C4 at `grainSize = 0.3`, `sampleRate = 48000`. -/
theorem C4_total_samples_witness :
    (0:ℚ) ≤ 48000 ∧
    (grainTotalSamples (3/10) 48000 = max 1 ⌊max (1/100 : ℚ) (3/10) * 48000⌋ ∧
     1 ≤ grainTotalSamples (3/10) 48000) :=
  ⟨by norm_num, C4_total_samples (3/10) 48000 (by norm_num)⟩

/-! ## Claim C1 — density floor and scheduler termination -/

/-- Claim C1, counterexample: with the density LFO target bit clear,
`getModulated` returns the raw density parameter without any clamping,
so a density parameter of 0.001 s yields a spawn period below the 5 ms
floor the claim asserts. -/
theorem C1_counterexample :
    modulatedDensity cexDensityState = 1/1000 ∧
    ¬ (1/200 ≤ modulatedDensity cexDensityState) := by
  have h : modulatedDensity cexDensityState = 1/1000 := by
    norm_num [modulatedDensity, getModulated, cexDensityState,
      initialEngineState, defaultEngineParams]
  exact ⟨h, by rw [h]; norm_num⟩

/-- A spawn action that, like `GrainEngine::spawnGrain`, leaves the
parameter record and the cached per-block LFO value untouched (the C++
function writes only the grain pool, the event ring and the PRNG state)
cannot change the modulated density recomputed inside the loop. -/
theorem modulatedDensity_spawnFn (spawnFn : EngineState → EngineState)
    (hpres : ∀ s : EngineState, (spawnFn s).params = s.params ∧
      (spawnFn s).currentLfoValue = s.currentLfoValue)
    (s : EngineState) : modulatedDensity (spawnFn s) = modulatedDensity s := by
  unfold modulatedDensity
  rw [(hpres s).1, (hpres s).2]

/-- Unrolling invariant for the scheduling loop under a
parameter-preserving spawn action and a positive density: enough fuel
makes the loop stop at or past the block end. -/
theorem scheduleLoop_term_aux (spawnFn : EngineState → EngineState)
    (hpres : ∀ s : EngineState, (spawnFn s).params = s.params ∧
      (spawnFn s).currentLfoValue = s.currentLfoValue)
    (d : ℚ) :
    ∀ n : Nat, ∀ next blockEnd : ℚ, ∀ st : EngineState,
      modulatedDensity st = d →
      blockEnd - next ≤ (n : ℚ) * d →
      ∃ next' : ℚ, ∃ st' : EngineState,
        scheduleLoop spawnFn n next blockEnd st = some (next', st') ∧ blockEnd ≤ next' := by
  intro n
  induction n with
  | zero =>
    intro next blockEnd st _ hle
    push_cast at hle
    refine ⟨next, st, ?_, by linarith⟩
    simp only [scheduleLoop]
    rw [if_neg (not_lt.mpr (by linarith))]
  | succ n ih =>
    intro next blockEnd st hd hle
    by_cases hlt : next < blockEnd
    · have hd' : modulatedDensity (spawnFn st) = d := by
        rw [modulatedDensity_spawnFn spawnFn hpres st, hd]
      have h2 : blockEnd - (next + d) ≤ (n : ℚ) * d := by
        push_cast at hle ⊢
        linarith
      obtain ⟨next', st', heq, hge⟩ := ih (next + d) blockEnd (spawnFn st) hd' h2
      refine ⟨next', st', ?_, hge⟩
      simp only [scheduleLoop]
      rw [if_pos hlt, hd']
      exact heq
    · refine ⟨next, st, ?_, not_lt.mp hlt⟩
      simp only [scheduleLoop]
      rw [if_neg hlt]

/-- Dual invariant: under a parameter-preserving spawn action and a
non-positive density, `nextSpawnTime` never advances past the block end,
so the loop exhausts every fuel bound (the C++ `while` never exits). -/
theorem scheduleLoop_nonterm_aux (spawnFn : EngineState → EngineState)
    (hpres : ∀ s : EngineState, (spawnFn s).params = s.params ∧
      (spawnFn s).currentLfoValue = s.currentLfoValue)
    (d : ℚ) (hneg : d ≤ 0) :
    ∀ n : Nat, ∀ next blockEnd : ℚ, ∀ st : EngineState,
      modulatedDensity st = d → next < blockEnd →
      scheduleLoop spawnFn n next blockEnd st = none := by
  intro n
  induction n with
  | zero =>
    intro next blockEnd st _ hlt
    simp only [scheduleLoop]
    rw [if_pos hlt]
  | succ n ih =>
    intro next blockEnd st hd hlt
    have hd' : modulatedDensity (spawnFn st) = d := by
      rw [modulatedDensity_spawnFn spawnFn hpres st, hd]
    simp only [scheduleLoop]
    rw [if_pos hlt, hd']
    exact ih (next + d) blockEnd (spawnFn st) hd' (by linarith)

/-- Claim C1 as amended: the [5 ms, 10 s] clamp on the spawn period is
applied only when the density LFO target bit (bit 1) is set — in that
case the modulated density is at least 0.005 s; when the bit is clear
the raw density parameter is used unchanged.  For every spawn action
that, like `spawnGrain`, leaves the parameter record and the cached LFO
value untouched: each loop iteration advances `nextSpawnTime` by the
modulated density; whenever that density is positive (in particular
whenever the bit is set, and for every in-range parameter ≥ 0.005 s
when it is not) the while-loop terminates with `nextSpawnTime` at or
past the block end; and whenever it is non-positive and the block is
non-empty the loop never finishes. -/
theorem C1_density_floor (spawnFn : EngineState → EngineState)
    (hpres : ∀ s : EngineState, (spawnFn s).params = s.params ∧
      (spawnFn s).currentLfoValue = s.currentLfoValue)
    (st : EngineState) :
    (st.params.lfoTargetMask &&& 2 ≠ 0 →
      1/200 ≤ modulatedDensity st ∧ modulatedDensity st ≤ 10) ∧
    (st.params.lfoTargetMask &&& 2 = 0 → modulatedDensity st = st.params.density) ∧
    (∀ next blockEnd : ℚ, next < blockEnd → ∀ n : Nat,
      scheduleLoop spawnFn (n + 1) next blockEnd st
        = scheduleLoop spawnFn n (next + modulatedDensity st) blockEnd (spawnFn st)) ∧
    (0 < modulatedDensity st →
      ∀ next blockEnd : ℚ, ∃ fuel : Nat, ∃ next' : ℚ, ∃ st' : EngineState,
        scheduleLoop spawnFn fuel next blockEnd st = some (next', st') ∧
        blockEnd ≤ next') ∧
    (modulatedDensity st ≤ 0 →
      ∀ next blockEnd : ℚ, next < blockEnd →
        ∀ fuel : Nat, scheduleLoop spawnFn fuel next blockEnd st = none) := by
  refine ⟨?_, ?_, ?_, ?_, ?_⟩
  · intro h
    unfold modulatedDensity getModulated
    rw [if_neg h]
    exact ⟨le_max_left _ _, max_le (by norm_num) (min_le_left _ _)⟩
  · intro h
    unfold modulatedDensity getModulated
    rw [if_pos h]
  · intro next blockEnd hlt n
    simp only [scheduleLoop]
    rw [if_pos hlt, modulatedDensity_spawnFn spawnFn hpres st]
  · intro hpos next blockEnd
    have h1 : (blockEnd - next) / modulatedDensity st
        ≤ (⌈(blockEnd - next) / modulatedDensity st⌉₊ : ℚ) := Nat.le_ceil _
    have hle : blockEnd - next
        ≤ (⌈(blockEnd - next) / modulatedDensity st⌉₊ : ℚ) * modulatedDensity st := by
      calc blockEnd - next = (blockEnd - next) / modulatedDensity st * modulatedDensity st := by
            field_simp
      _ ≤ _ := mul_le_mul_of_nonneg_right h1 (le_of_lt hpos)
    obtain ⟨next', st', heq, hge⟩ :=
      scheduleLoop_term_aux spawnFn hpres (modulatedDensity st) _ next blockEnd st rfl hle
    exact ⟨_, next', st', heq, hge⟩
  · intro hneg next blockEnd hlt fuel
    exact scheduleLoop_nonterm_aux spawnFn hpres (modulatedDensity st) hneg
      fuel next blockEnd st rfl hlt

/-- Witness for C1: a state with the density LFO bit set and density
parameter 0 — the clamp makes the modulated density 0.005 s and the
loop over the block [0, 1) terminates (spawn action: the identity, which
trivially preserves the parameters and the cached LFO value). -/
theorem C1_density_floor_witness :
    witDensityState.params.lfoTargetMask &&& 2 ≠ 0 ∧
    (1/200 ≤ modulatedDensity witDensityState ∧ modulatedDensity witDensityState ≤ 10) ∧
    ∃ fuel : Nat, ∃ next' : ℚ, ∃ st' : EngineState,
      scheduleLoop id fuel 0 1 witDensityState = some (next', st') ∧
      (1:ℚ) ≤ next' :=
  ⟨by norm_num [witDensityState, defaultEngineParams, initialEngineState],
   (C1_density_floor id (fun _ => ⟨rfl, rfl⟩) witDensityState).1
     (by norm_num [witDensityState, defaultEngineParams, initialEngineState]),
   (C1_density_floor id (fun _ => ⟨rfl, rfl⟩) witDensityState).2.2.2.1
     (by norm_num [modulatedDensity, getModulated, witDensityState,
        defaultEngineParams, initialEngineState]) 0 1⟩

/-! ## Claim C2 — envelope boundary values -/

/-- Claim C2, counterexample: with `attackRatio = 0.01` (the lower end of
the claimed range) the phase `fadeRatio = 0.01` already falls past the
attack region into the sustain branch, so `env(fadeRatio) = 1`, not
`≤ ε = 0.001`; and with `attackRatio = releaseRatio = 0.9` the phase
`1 - releaseRatio = 0.1` falls into the attack region, so
`env(1 - releaseRatio) ≈ 0.102 ≠ 1`. -/
theorem C2_counterexample :
    computeEnvelope false (1/100) (1/2) (1/100) = 1 ∧
    ¬ (computeEnvelope false (1/100) (1/2) (1/100) ≤ 1/1000) ∧
    computeEnvelope false (9/10) (9/10) (1 - 9/10) = 227/2225 ∧
    computeEnvelope false (9/10) (9/10) (1 - 9/10) ≠ 1 := by
  refine ⟨?_, ?_, ?_, ?_⟩ <;> norm_num [computeEnvelope]

/-- Claim C2 as amended: for `attackRatio, releaseRatio ∈ [0.01, 0.9]`
and both envelope shapes, `env(0) = 0`, `env(1) ≤ ε`, and
`env(attackRatio) ∈ [ε, 1]` hold unconditionally; `env(fadeRatio) ≤ ε`
holds provided `attackRatio > fadeRatio` (at `attackRatio = fadeRatio`
the value is 1); and `env(1 - releaseRatio) = 1` holds provided
`attackRatio + releaseRatio ≤ 1` (otherwise that phase lies inside the
attack region). -/
theorem C2_envelope_boundaries (b : Bool) (a r : ℚ)
    (ha1 : 1/100 ≤ a) (ha2 : a ≤ 9/10) (hr1 : 1/100 ≤ r) (hr2 : r ≤ 9/10) :
    computeEnvelope b a r 0 = 0 ∧
    (1/100 < a → computeEnvelope b a r (1/100) ≤ 1/1000) ∧
    (1/1000 ≤ computeEnvelope b a r a ∧ computeEnvelope b a r a ≤ 1) ∧
    (a + r ≤ 1 → computeEnvelope b a r (1 - r) = 1) ∧
    computeEnvelope b a r 1 ≤ 1/1000 := by
  have hr0 : (0:ℚ) < r := by linarith
  refine ⟨?_, ?_, ?_, ?_, ?_⟩
  · -- env(0) = 0: the anti-click ramp starts at zero
    simp only [computeEnvelope]
    rw [if_pos (by norm_num : (0:ℚ) < 1/100)]
    norm_num
  · -- env(fadeRatio) = ε when the attack region is non-degenerate
    intro ha
    simp only [computeEnvelope]
    rw [if_neg (by norm_num : ¬ ((1:ℚ)/100 < 1/100)), if_pos ha]
    split_ifs <;> norm_num
  · -- env(attackRatio) ∈ [ε, 1]
    simp only [computeEnvelope]
    rw [if_neg (not_lt.mpr ha1), if_neg (lt_irrefl a)]
    by_cases hs : a < 1 - r
    · rw [if_pos hs]
      norm_num
    · rw [if_neg hs, if_neg (not_lt.mpr (by linarith : (1:ℚ)/1000000 ≤ r))]
      push_neg at hs
      have htlt : (a - (1 - r)) / r < 1 := by
        rw [div_lt_one hr0]
        linarith
      have htge : (0:ℚ) ≤ (a - (1 - r)) / r := by
        apply div_nonneg _ (le_of_lt hr0)
        linarith
      have hmin : min 1 ((a - (1 - r)) / r) = (a - (1 - r)) / r :=
        min_eq_right (le_of_lt htlt)
      rw [hmin]
      have hval : 1 - (a - (1 - r)) / r = (1 - a) / r := by
        field_simp
        ring
      have hlow : (1:ℚ)/9 ≤ (1 - a) / r := by
        rw [le_div_iff₀ hr0]
        linarith
      have hhigh : (1 - a) / r ≤ 1 := by
        rw [div_le_one hr0]
        linarith
      cases b with
      | false =>
        rw [if_neg (by simp : ¬ (false = true)), hval]
        constructor <;> linarith
      | true =>
        rw [if_pos rfl, hval]
        constructor <;> nlinarith
  · -- env(1 - releaseRatio) = 1 when the sustain region is non-empty
    intro har
    simp only [computeEnvelope]
    rw [if_neg (by intro h; linarith : ¬ (1 - r < 1/100)),
        if_neg (by intro h; linarith : ¬ (1 - r < a)),
        if_neg (lt_irrefl (1 - r)),
        if_neg (not_lt.mpr (by linarith : (1:ℚ)/1000000 ≤ r))]
    rw [sub_self, zero_div, min_eq_right (by norm_num : (0:ℚ) ≤ 1)]
    cases b <;> norm_num
  · -- env(1) = 0 ≤ ε
    simp only [computeEnvelope]
    rw [if_neg (by norm_num : ¬ ((1:ℚ) < 1/100)),
        if_neg (by intro h; linarith : ¬ ((1:ℚ) < a)),
        if_neg (by intro h; linarith : ¬ ((1:ℚ) < 1 - r)),
        if_neg (not_lt.mpr (by linarith : (1:ℚ)/1000000 ≤ r))]
    have : (1 - (1 - r)) / r = 1 := by
      field_simp
    rw [this, min_self]
    cases b <;> norm_num

/-- Witness for C2 at `attackRatio = releaseRatio = 0.5`, linear shape. -/
theorem C2_envelope_boundaries_witness :
    ((1:ℚ)/100 ≤ 1/2 ∧ (1/2:ℚ) ≤ 9/10) ∧
    (computeEnvelope false (1/2) (1/2) 0 = 0 ∧
     (1/100 < (1/2:ℚ) → computeEnvelope false (1/2) (1/2) (1/100) ≤ 1/1000) ∧
     (1/1000 ≤ computeEnvelope false (1/2) (1/2) (1/2) ∧
      computeEnvelope false (1/2) (1/2) (1/2) ≤ 1) ∧
     ((1/2:ℚ) + 1/2 ≤ 1 → computeEnvelope false (1/2) (1/2) (1 - 1/2) = 1) ∧
     computeEnvelope false (1/2) (1/2) 1 ≤ 1/1000) :=
  ⟨⟨by norm_num, by norm_num⟩,
   C2_envelope_boundaries false (1/2) (1/2)
     (by norm_num) (by norm_num) (by norm_num) (by norm_num)⟩

/-! ## Claim C3 — grain-pool slot selection and capacity -/

/-- The slot-search loop stops at the first inactive slot: if the pool
segment contains one, the returned `slot` is `i` plus the index of the
first such slot (which is indeed inactive). -/
theorem scanPool_finds_inactive :
    ∀ (l : List Grain) (i : Nat) (o least : Int),
      (∃ g ∈ l, g.active = false) →
      ∃ k : Nat, ∃ hk : k < l.length,
        (l.get ⟨k, hk⟩).active = false ∧
        (scanPool l i o least).1 = ((i + k : Nat) : Int) := by
  intro l
  induction l with
  | nil =>
    intro i o least h
    simp at h
  | cons g rest ih =>
    intro i o least h
    by_cases hg : g.active = false
    · refine ⟨0, by simp, by simpa using hg, ?_⟩
      simp [scanPool, hg]
    · have hg' : g.active = true := by
        cases hga : g.active
        · exact absurd hga hg
        · rfl
      have h' : ∃ g' ∈ rest, g'.active = false := by
        obtain ⟨g', hmem, hact⟩ := h
        rcases List.mem_cons.mp hmem with rfl | hmem'
        · exact absurd hact hg
        · exact ⟨g', hmem', hact⟩
      by_cases hlt : g.samplesRemaining < least
      · obtain ⟨k, hk, hact, heq⟩ := ih (i + 1) (i : Int) g.samplesRemaining h'
        refine ⟨k + 1, by simpa using Nat.succ_lt_succ hk, by simpa using hact, ?_⟩
        have hstep : scanPool (g :: rest) i o least
            = scanPool rest (i + 1) (i : Int) g.samplesRemaining := by
          simp [scanPool, hg', hlt]
        rw [hstep, heq]
        omega
      · obtain ⟨k, hk, hact, heq⟩ := ih (i + 1) o least h'
        refine ⟨k + 1, by simpa using Nat.succ_lt_succ hk, by simpa using hact, ?_⟩
        have hstep : scanPool (g :: rest) i o least
            = scanPool rest (i + 1) o least := by
          simp [scanPool, hg', hlt]
        rw [hstep, heq]
        omega

/-- On an all-active pool segment the slot-search loop returns
`slot = -1` and tracks the minimum `samplesRemaining`: the final
`leastRemaining` is a lower bound on the segment and on the incoming
bound, and when it improved on the incoming bound, `oldestSlot` indexes
a grain achieving it. -/
theorem scanPool_all_active :
    ∀ (l : List Grain) (i : Nat) (o least : Int),
      (∀ g ∈ l, g.active = true) →
      (scanPool l i o least).1 = -1 ∧
      (scanPool l i o least).2.2 ≤ least ∧
      (∀ g ∈ l, (scanPool l i o least).2.2 ≤ g.samplesRemaining) ∧
      ((scanPool l i o least).2.2 < least →
        ∃ k : Nat, ∃ hk : k < l.length,
          (scanPool l i o least).2.1 = ((i + k : Nat) : Int) ∧
          (l.get ⟨k, hk⟩).samplesRemaining = (scanPool l i o least).2.2) ∧
      (¬ (scanPool l i o least).2.2 < least →
        (scanPool l i o least).2.1 = o ∧ (scanPool l i o least).2.2 = least) := by
  intro l
  induction l with
  | nil =>
    intro i o least _
    refine ⟨rfl, le_refl _, by simp, ?_, fun _ => ⟨rfl, rfl⟩⟩
    intro hcon
    exact absurd hcon (lt_irrefl least)
  | cons g rest ih =>
    intro i o least hall
    have hg : g.active = true := hall g (List.mem_cons_self g rest)
    have hrest : ∀ g' ∈ rest, g'.active = true :=
      fun g' hm => hall g' (List.mem_cons_of_mem g hm)
    by_cases hlt : g.samplesRemaining < least
    · have hstep : scanPool (g :: rest) i o least
          = scanPool rest (i + 1) (i : Int) g.samplesRemaining := by
        simp [scanPool, hg, hlt]
      obtain ⟨h1, h2, h3, h4, h5⟩ := ih (i + 1) (i : Int) g.samplesRemaining hrest
      rw [hstep]
      refine ⟨h1, le_trans h2 (le_of_lt hlt), ?_, ?_, ?_⟩
      · intro g' hm
        rcases List.mem_cons.mp hm with rfl | hm'
        · exact h2
        · exact h3 g' hm'
      · intro _
        by_cases hlt2 :
            (scanPool rest (i + 1) (i : Int) g.samplesRemaining).2.2 < g.samplesRemaining
        · obtain ⟨k, hk, hslot, hval⟩ := h4 hlt2
          refine ⟨k + 1, by simpa using Nat.succ_lt_succ hk, ?_, by simpa using hval⟩
          rw [hslot]
          omega
        · obtain ⟨hslot, hval⟩ := h5 hlt2
          refine ⟨0, by simp, ?_, by simpa using hval.symm⟩
          rw [hslot]
          omega
      · intro hcon
        exact absurd (lt_of_le_of_lt h2 hlt) hcon
    · have hstep : scanPool (g :: rest) i o least
          = scanPool rest (i + 1) o least := by
        simp [scanPool, hg, hlt]
      obtain ⟨h1, h2, h3, h4, h5⟩ := ih (i + 1) o least hrest
      rw [hstep]
      refine ⟨h1, h2, ?_, ?_, h5⟩
      · intro g' hm
        rcases List.mem_cons.mp hm with rfl | hm'
        · exact le_trans h2 (not_lt.mp hlt)
        · exact h3 g' hm'
      · intro hlt2
        obtain ⟨k, hk, hslot, hval⟩ := h4 hlt2
        refine ⟨k + 1, by simpa using Nat.succ_lt_succ hk, ?_, by simpa using hval⟩
        rw [hslot]
        omega

/-- Claim C3: on every spawn, if the 128-slot pool has an inactive slot
the new grain occupies (the first) inactive slot; if all slots are
active, the slot holding a grain with the minimum `samplesRemaining` is
overwritten; in either case the written grain is active afterwards, and
the number of active grains never exceeds `MAX_GRAINS = 128`.  (The
`samplesRemaining < INT32_MAX` hypothesis reflects that a remaining
count always fits strictly below the loop's `INT32_MAX` sentinel.) -/
theorem C3_spawn_slot (pool : List Grain) (g : Grain)
    (hlen : pool.length = MAX_GRAINS)
    (hrep : ∀ gr ∈ pool, gr.samplesRemaining < INT32_MAX) :
    ((∃ gr ∈ pool, gr.active = false) →
      ∃ k : Nat, ∃ hk : k < pool.length,
        (pool.get ⟨k, hk⟩).active = false ∧
        spawnIntoPool pool g = pool.set k { g with active := true } ∧
        ((spawnIntoPool pool g).getD k zeroGrain).active = true) ∧
    ((∀ gr ∈ pool, gr.active = true) →
      ∃ k : Nat, ∃ hk : k < pool.length,
        (∀ gr ∈ pool, (pool.get ⟨k, hk⟩).samplesRemaining ≤ gr.samplesRemaining) ∧
        spawnIntoPool pool g = pool.set k { g with active := true } ∧
        ((spawnIntoPool pool g).getD k zeroGrain).active = true) ∧
    activeCount (spawnIntoPool pool g) ≤ MAX_GRAINS := by
  have hset_active : ∀ k : Nat, k < pool.length →
      ((pool.set k { g with active := true }).getD k zeroGrain).active = true := by
    intro k hk
    have hk' : k < (pool.set k { g with active := true }).length := by
      rw [List.length_set]
      exact hk
    rw [List.getD_eq_get _ _ hk', List.get_set_eq]
  refine ⟨?_, ?_, ?_⟩
  · intro hexist
    obtain ⟨k, hk, hact, heq⟩ := scanPool_finds_inactive pool 0 (-1) INT32_MAX hexist
    simp only [Nat.zero_add] at heq
    have hcs : chooseSlot pool = ((k : Nat) : Int) := by
      simp only [chooseSlot]
      rw [heq, if_neg (not_lt.mpr (Int.natCast_nonneg k))]
    have hsp : spawnIntoPool pool g = pool.set k { g with active := true } := by
      simp only [spawnIntoPool]
      rw [hcs, if_neg (not_lt.mpr (Int.natCast_nonneg k)), Int.toNat_natCast]
    refine ⟨k, hk, hact, hsp, ?_⟩
    rw [hsp]
    exact hset_active k hk
  · intro hallact
    obtain ⟨h1, _, h3, h4, _⟩ := scanPool_all_active pool 0 (-1) INT32_MAX hallact
    have hne : pool ≠ [] := by
      intro hnil
      rw [hnil] at hlen
      simp [MAX_GRAINS] at hlen
    obtain ⟨g0, hg0⟩ := List.exists_mem_of_ne_nil pool hne
    have hltmax : (scanPool pool 0 (-1) INT32_MAX).2.2 < INT32_MAX :=
      lt_of_le_of_lt (h3 g0 hg0) (hrep g0 hg0)
    obtain ⟨k, hk, hslot, hval⟩ := h4 hltmax
    simp only [Nat.zero_add] at hslot
    have hcs : chooseSlot pool = ((k : Nat) : Int) := by
      simp only [chooseSlot]
      rw [h1, if_pos (by norm_num : (-1 : Int) < 0), hslot]
    have hsp : spawnIntoPool pool g = pool.set k { g with active := true } := by
      simp only [spawnIntoPool]
      rw [hcs, if_neg (not_lt.mpr (Int.natCast_nonneg k)), Int.toNat_natCast]
    refine ⟨k, hk, ?_, hsp, ?_⟩
    · intro gr hm
      rw [hval]
      exact h3 gr hm
    · rw [hsp]
      exact hset_active k hk
  · have hcount : ∀ l : List Grain, activeCount l ≤ l.length :=
      fun l => List.length_filter_le _ l
    simp only [spawnIntoPool]
    split_ifs
    · rw [← hlen]
      exact hcount pool
    · calc activeCount (pool.set (chooseSlot pool).toNat { g with active := true })
          ≤ (pool.set (chooseSlot pool).toNat { g with active := true }).length :=
            hcount _
      _ = pool.length := List.length_set _ _ _
      _ = MAX_GRAINS := hlen

/-- Witness for C3 on a fully inactive 128-slot pool. -/
theorem C3_spawn_slot_witness :
    (List.replicate MAX_GRAINS zeroGrain : List Grain).length = MAX_GRAINS ∧
    (∀ gr ∈ (List.replicate MAX_GRAINS zeroGrain : List Grain),
      gr.samplesRemaining < INT32_MAX) ∧
    (∃ gr ∈ (List.replicate MAX_GRAINS zeroGrain : List Grain), gr.active = false) ∧
    ((∃ gr ∈ (List.replicate MAX_GRAINS zeroGrain : List Grain), gr.active = false) →
      ∃ k : Nat, ∃ hk : k < (List.replicate MAX_GRAINS zeroGrain : List Grain).length,
        ((List.replicate MAX_GRAINS zeroGrain : List Grain).get ⟨k, hk⟩).active = false ∧
        spawnIntoPool (List.replicate MAX_GRAINS zeroGrain) cexGrain
          = (List.replicate MAX_GRAINS zeroGrain : List Grain).set k
              { cexGrain with active := true } ∧
        ((spawnIntoPool (List.replicate MAX_GRAINS zeroGrain) cexGrain).getD k
            zeroGrain).active = true) ∧
    activeCount (spawnIntoPool (List.replicate MAX_GRAINS zeroGrain) cexGrain)
      ≤ MAX_GRAINS := by
  have hlen : (List.replicate MAX_GRAINS zeroGrain : List Grain).length = MAX_GRAINS := by
    simp
  have hrep : ∀ gr ∈ (List.replicate MAX_GRAINS zeroGrain : List Grain),
      gr.samplesRemaining < INT32_MAX := by
    intro gr hm
    rw [List.eq_of_mem_replicate hm]
    norm_num [zeroGrain, INT32_MAX]
  have hex : ∃ gr ∈ (List.replicate MAX_GRAINS zeroGrain : List Grain),
      gr.active = false :=
    ⟨zeroGrain, List.mem_replicate.mpr ⟨by norm_num [MAX_GRAINS], rfl⟩, rfl⟩
  have hmain := C3_spawn_slot (List.replicate MAX_GRAINS zeroGrain) cexGrain hlen hrep
  exact ⟨hlen, hrep, hex, hmain.1, hmain.2.2⟩

/-! ## Claim C5 — attack-release transition when `a + r > 1` -/

/-- Claim C5, counterexample: at `attackRatio = releaseRatio = 0.9`
(linear shape) the envelope is NOT continuous at `phase = attackRatio`:
just below 0.9 the attack formula is arbitrarily close to 1, while at
0.9 the release formula gives `(1-a)/r = 1/9`. -/
theorem C5_counterexample : ¬ envContinuousAt false (9/10) (9/10) (9/10) := by
  intro h
  obtain ⟨δ, hδ, H⟩ := h (1/2) (by norm_num)
  set d : ℚ := min (δ/2) (1/100) with hd_def
  have hd0 : 0 < d := lt_min (by linarith) (by norm_num)
  have hd1 : d ≤ 1/100 := min_le_right _ _
  have hdδ : d < δ := lt_of_le_of_lt (min_le_left _ _) (by linarith)
  have hdist : |(9/10 - d : ℚ) - 9/10| < δ := by
    rw [show (9/10 - d : ℚ) - 9/10 = -d by ring, abs_neg, abs_of_pos hd0]
    exact hdδ
  have hcenter : computeEnvelope false (9/10) (9/10) (9/10) = 1/9 := by
    norm_num [computeEnvelope]
  have hnear : computeEnvelope false (9/10) (9/10) (9/10 - d)
      = 1/1000 + (89/100 - d) * (999/890) := by
    simp only [computeEnvelope]
    rw [if_neg (not_lt.mpr (by linarith : (1:ℚ)/100 ≤ 9/10 - d)),
        if_pos (by linarith : (9:ℚ)/10 - d < 9/10),
        if_neg (by norm_num : ¬ ((9:ℚ)/10 - 1/100 < 1/1000000)),
        if_neg (by simp : ¬ (false = true))]
    have : (9/10 - d - 1/100) / (9/10 - 1/100) * (1 - 1/1000)
        = (89/100 - d) * (999/890) := by
      field_simp
      ring
    rw [this]
  have hH := H (9/10 - d) hdist
  rw [hnear, hcenter] at hH
  have habs := (abs_lt.mp hH).2
  linarith

/-- Claim C5 as amended: when `attackRatio + releaseRatio > 1` (both in
[0.01, 0.9]) the sustain branch of the envelope is never taken and the
envelope passes directly from the attack region to the release region;
but the transition at `phase = attackRatio` is discontinuous: the
release side takes the value `(1-a)/r` (linear) or `((1-a)/r)²`
(quadratic), strictly below the attack-side limit 1. -/
theorem C5_attack_release_transition (b : Bool) (a r : ℚ)
    (ha1 : 1/100 ≤ a) (ha2 : a ≤ 9/10) (hr1 : 1/100 ≤ r) (hr2 : r ≤ 9/10)
    (har : 1 < a + r) :
    (∀ phase : ℚ, ¬ sustainBranch a r phase) ∧
    computeEnvelope b a r a
      = (if b then ((1 - a)/r) * ((1 - a)/r) else (1 - a)/r) ∧
    (1 - a)/r < 1 := by
  have hr0 : (0:ℚ) < r := by linarith
  refine ⟨?_, ?_, ?_⟩
  · rintro phase ⟨_, h2, h3⟩
    push_neg at h2
    linarith
  · simp only [computeEnvelope]
    rw [if_neg (not_lt.mpr ha1), if_neg (lt_irrefl a),
        if_neg (not_lt.mpr (by linarith : 1 - r ≤ a)),
        if_neg (not_lt.mpr (by linarith : (1:ℚ)/1000000 ≤ r))]
    have htlt : (a - (1 - r)) / r < 1 := by
      rw [div_lt_one hr0]
      linarith
    rw [min_eq_right (le_of_lt htlt)]
    have hval : 1 - (a - (1 - r)) / r = (1 - a) / r := by
      field_simp
      ring
    cases b with
    | false =>
      rw [if_neg (by simp : ¬ (false = true)), if_neg (by simp : ¬ (false = true)), hval]
    | true =>
      rw [if_pos rfl, if_pos rfl, hval]
  · rw [div_lt_one hr0]
    linarith

/-- Witness for C5 at `a = r = 0.9`, linear shape. -/
theorem C5_attack_release_transition_witness :
    ((1:ℚ) < 9/10 + 9/10) ∧
    (¬ sustainBranch (9/10) (9/10) (1/2)) ∧
    computeEnvelope false (9/10) (9/10) (9/10)
      = (if false then ((1 - 9/10)/(9/10)) * ((1 - 9/10)/(9/10)) else (1 - 9/10)/(9/10)) ∧
    (1 - 9/10 : ℚ)/(9/10) < 1 :=
  ⟨by norm_num,
   (C5_attack_release_transition false (9/10) (9/10)
     (by norm_num) (by norm_num) (by norm_num) (by norm_num) (by norm_num)).1 (1/2),
   (C5_attack_release_transition false (9/10) (9/10)
     (by norm_num) (by norm_num) (by norm_num) (by norm_num) (by norm_num)).2.1,
   (C5_attack_release_transition false (9/10) (9/10)
     (by norm_num) (by norm_num) (by norm_num) (by norm_num) (by norm_num)).2.2⟩

/-! ## Claim C6 — the "silent" early-out of `process` -/

/-- Inactive zero-initialized slots pass through the mixing loop
untouched and contribute nothing. -/
theorem mixFrame_replicate_zero (buf : List ℚ) (bufLen : Int) (n : Nat) :
    mixFrame buf bufLen (List.replicate n zeroGrain)
      = (0, 0, List.replicate n zeroGrain) := by
  induction n with
  | zero => simp [mixFrame]
  | succ n ih =>
    rw [List.replicate_succ]
    simp only [mixFrame]
    rw [if_neg (by norm_num [zeroGrain] : ¬ (zeroGrain.active = true))]
    rw [ih]

set_option maxRecDepth 8000 in
/-- Claim C6, counterexample: the early-out guard of `process` tests only
`isPlaying`, buffer presence and buffer length — not the sample rate.
In a playing state with a non-empty buffer, a non-positive sample rate
(here −1, as `init(-1)` would leave) and an active grain, the block is
processed normally and the output is NOT all zeros. -/
theorem C6_counterexample :
    cexRateState.sampleRate ≤ 0 ∧
    cexRateState.isPlaying = true ∧
    cexRateState.sampleBuffer ≠ none ∧
    cexRateState.sampleBufferLength ≠ 0 ∧
    (processBlock 0 id 0 cexRateState 1).map (fun r => r.1) = some [1] ∧
    (processBlock 0 id 0 cexRateState 1).map (fun r => r.1) ≠ some [0] := by
  have heval : (processBlock 0 id 0 cexRateState 1).map (fun r => r.1) = some [1] := by
    norm_num [processBlock, cexRateState, initialEngineState, defaultEngineParams,
      mixFrames, mixFrame, mixFrame_replicate_zero, processGrain, computeEnvelope,
      bufAt, ratTrunc, scheduleLoop, smootherIterate, smootherProcess, cexGrain,
      zeroGrain, Option.map, Option.some_ne_none]
  refine ⟨by norm_num [cexRateState, initialEngineState], rfl,
    by simp [cexRateState, initialEngineState],
    by simp [cexRateState, initialEngineState], heval, ?_⟩
  rw [heval]
  intro h
  have := Option.some.inj h
  simp at this

/-- Claim C6 as amended: when the engine is not playing, or no sample
buffer is present, or the buffer is empty, `process` zeroes both output
channels for all `numFrames` frames and advances the engine time by
`numFrames × invSampleRate` (the reciprocal sample rate stored at
`init`); no error is raised.  A non-positive sample rate alone does not
take this path. -/
theorem C6_silent_path (lfoVal : ℚ) (spawnFn : EngineState → EngineState)
    (fuel : Nat) (st : EngineState) (numFrames : Nat)
    (h : st.isPlaying = false ∨ st.sampleBuffer = none ∨ st.sampleBufferLength = 0) :
    processBlock lfoVal spawnFn fuel st numFrames =
      some (List.replicate numFrames 0, List.replicate numFrames 0,
        { st with currentTime := st.currentTime + (numFrames : ℚ) * st.invSampleRate }) := by
  simp only [processBlock]
  rw [if_pos h]

/-- Witness for C6 on the freshly constructed engine (not playing),
one 128-frame block. -/
theorem C6_silent_path_witness :
    (initialEngineState.isPlaying = false ∨ initialEngineState.sampleBuffer = none ∨
      initialEngineState.sampleBufferLength = 0) ∧
    processBlock 0 id 0 initialEngineState 128 =
      some (List.replicate 128 0, List.replicate 128 0,
        { initialEngineState with
            currentTime := initialEngineState.currentTime
              + (128 : ℚ) * initialEngineState.invSampleRate }) :=
  ⟨Or.inl rfl, C6_silent_path 0 id 0 initialEngineState 128 (Or.inl rfl)⟩

/-! ## Claim C7 — equal-power pan law -/

/-- Claim C7: for every final pan in [-1, +1] the precomputed gains
`panL = cos((pan+1)·π/4)` and `panR = sin((pan+1)·π/4)` satisfy
`panL² + panR² = 1` exactly (hence within 1e-6) and both lie in [0, 1]. -/
theorem C7_equal_power_pan (p : ℝ) (h1 : -1 ≤ p) (h2 : p ≤ 1) :
    NodeGrainReal.panGainL p ^ 2 + NodeGrainReal.panGainR p ^ 2 = 1 ∧
    |NodeGrainReal.panGainL p ^ 2 + NodeGrainReal.panGainR p ^ 2 - 1| ≤ 1/1000000 ∧
    0 ≤ NodeGrainReal.panGainL p ∧ NodeGrainReal.panGainL p ≤ 1 ∧
    0 ≤ NodeGrainReal.panGainR p ∧ NodeGrainReal.panGainR p ≤ 1 := by
  have hpi : (0:ℝ) < Real.pi := Real.pi_pos
  have hsum : NodeGrainReal.panGainL p ^ 2 + NodeGrainReal.panGainR p ^ 2 = 1 := by
    unfold NodeGrainReal.panGainL NodeGrainReal.panGainR
    exact Real.cos_sq_add_sin_sq _
  have hang0 : 0 ≤ NodeGrainReal.panAngle p := by
    unfold NodeGrainReal.panAngle
    have : 0 ≤ (p + 1) * (1/4) := by linarith
    positivity
  have hang2 : NodeGrainReal.panAngle p ≤ Real.pi / 2 := by
    unfold NodeGrainReal.panAngle
    have h14 : (p + 1) * (1/4) ≤ 1/2 := by linarith
    nlinarith
  refine ⟨hsum, by rw [hsum]; norm_num, ?_, ?_, ?_, ?_⟩
  · exact Real.cos_nonneg_of_mem_Icc ⟨by linarith, hang2⟩
  · exact Real.cos_le_one _
  · exact Real.sin_nonneg_of_nonneg_of_le_pi hang0 (by linarith)
  · exact Real.sin_le_one _

/-- Witness for C7 at `pan = 0`. -/
theorem C7_equal_power_pan_witness :
    (-1 : ℝ) ≤ 0 ∧ (0:ℝ) ≤ 1 ∧
    (NodeGrainReal.panGainL 0 ^ 2 + NodeGrainReal.panGainR 0 ^ 2 = 1 ∧
     0 ≤ NodeGrainReal.panGainL 0 ∧ NodeGrainReal.panGainL 0 ≤ 1) :=
  ⟨by norm_num, by norm_num,
   ⟨(C7_equal_power_pan 0 (by norm_num) (by norm_num)).1,
    (C7_equal_power_pan 0 (by norm_num) (by norm_num)).2.2.1,
    (C7_equal_power_pan 0 (by norm_num) (by norm_num)).2.2.2.1⟩⟩

/-! ## Claim C8 — parameter-smoother convergence -/

/-- Claim C8: with `sampleRate > 0` and `smoothTimeMs > 0` the one-pole
coefficient `c = 1 - exp(-1/(sampleRate·ms/1000))` lies in (0, 1); after
`N` process calls with constant target the distance to the target has
contracted by `(1-c)^N`; and after `setImmediate v` every subsequent
process call returns exactly `v`. -/
theorem C8_smoother_convergence (sr ms : ℝ) (hsr : 0 < sr) (hms : 0 < ms)
    (s : ParamSmoother ℝ) (hc : s.coeff = NodeGrainReal.smootherCoeff sr ms)
    (n : Nat) (v : ℝ) :
    0 < NodeGrainReal.smootherCoeff sr ms ∧
    NodeGrainReal.smootherCoeff sr ms < 1 ∧
    (smootherIterate n s).target = s.target ∧
    |(smootherIterate n s).current - s.target| ≤
      |s.current - s.target| * (1 - NodeGrainReal.smootherCoeff sr ms) ^ n ∧
    (smootherIterate n (smootherSetImmediate v s)).current = v := by
  have hdenom : (0:ℝ) < sr * ms * (1/1000) := by positivity
  have hexp : -1 / (sr * ms * (1/1000)) < 0 := by
    apply div_neg_of_neg_of_pos <;> [norm_num; exact hdenom]
  have hco : NodeGrainReal.smootherCoeff sr ms
      = 1 - Real.exp (-1 / (sr * ms * (1/1000))) := by
    unfold NodeGrainReal.smootherCoeff
    rw [if_pos ⟨hsr, hms⟩]
  have hlt1 : Real.exp (-1 / (sr * ms * (1/1000))) < 1 := by
    calc Real.exp (-1 / (sr * ms * (1/1000))) < Real.exp 0 := Real.exp_lt_exp.mpr hexp
    _ = 1 := Real.exp_zero
  have hpos : (0:ℝ) < Real.exp (-1 / (sr * ms * (1/1000))) := Real.exp_pos _
  obtain ⟨ht, hcf, hcur⟩ := smootherIterate_spec n s
  refine ⟨by rw [hco]; linarith, by rw [hco]; linarith, ht, ?_, ?_⟩
  · rw [hcur, hc, abs_mul, abs_pow]
    have h1c : |1 - NodeGrainReal.smootherCoeff sr ms|
        = 1 - NodeGrainReal.smootherCoeff sr ms := by
      rw [abs_of_nonneg]
      rw [hco]
      linarith
    rw [h1c]
  · obtain ⟨ht', _, hcur'⟩ := smootherIterate_spec n (smootherSetImmediate v s)
    have : (smootherSetImmediate v s).current = v := rfl
    have ht2 : (smootherSetImmediate v s).target = v := rfl
    rw [ht2] at ht' hcur'
    rw [this, sub_self, zero_mul] at hcur'
    linarith [hcur', ht']

/-- Witness for C8 at `sampleRate = 48000`, `smoothTimeMs = 10`. -/
theorem C8_smoother_convergence_witness :
    (0:ℝ) < 48000 ∧ (0:ℝ) < 10 ∧
    (0 < NodeGrainReal.smootherCoeff 48000 10 ∧
     NodeGrainReal.smootherCoeff 48000 10 < 1 ∧
     (smootherIterate 3 (⟨1, 0, NodeGrainReal.smootherCoeff 48000 10⟩ : ParamSmoother ℝ)).target = 0 ∧
     |(smootherIterate 3 (⟨1, 0, NodeGrainReal.smootherCoeff 48000 10⟩ : ParamSmoother ℝ)).current - 0| ≤
       |(1:ℝ) - 0| * (1 - NodeGrainReal.smootherCoeff 48000 10) ^ 3 ∧
     (smootherIterate 3 (smootherSetImmediate 5
        (⟨1, 0, NodeGrainReal.smootherCoeff 48000 10⟩ : ParamSmoother ℝ))).current = 5) :=
  ⟨by norm_num, by norm_num,
   C8_smoother_convergence 48000 10 (by norm_num) (by norm_num)
     ⟨1, 0, NodeGrainReal.smootherCoeff 48000 10⟩ rfl 3 5⟩

/-! ## Claim C9 — determinism of the engine -/

/-- Claim C9: the construction-time PRNG seed is 12345, and two engine
runs that start from equal states and receive equal call histories
produce equal results — the same output blocks, the same final grain
pool and visualization-event sequence.  The transcendental evaluations
(`lfoFn`, the spawn action `spawnFn`, the smoothing-coefficient function
`coeffFn`) are fixed functions shared by both runs; every other source
of variation, including the xorshift32 PRNG state, lives inside
`EngineState` and is threaded deterministically. -/
theorem C9_deterministic (lfoFn : EngineParams → ℚ → ℚ)
    (spawnFn : EngineState → EngineState) (coeffFn : ℚ → ℚ)
    (s1 s2 : EngineState) (cmds1 cmds2 : List EngineCmd)
    (hs : s1 = s2) (hc : cmds1 = cmds2) :
    initialEngineState.rngState = 12345 ∧
    runEngine lfoFn spawnFn coeffFn s1 cmds1 = runEngine lfoFn spawnFn coeffFn s2 cmds2 := by
  subst hs
  subst hc
  exact ⟨rfl, rfl⟩

/-- Witness for C9: a concrete run compared with itself. -/
theorem C9_deterministic_witness :
    initialEngineState.rngState = 12345 ∧
    runEngine (fun _ _ => 0) id (fun _ => 1) initialEngineState
        [EngineCmd.start, EngineCmd.stop]
      = runEngine (fun _ _ => 0) id (fun _ => 1) initialEngineState
        [EngineCmd.start, EngineCmd.stop] :=
  C9_deterministic (fun _ _ => 0) id (fun _ => 1) initialEngineState initialEngineState
    [EngineCmd.start, EngineCmd.stop] [EngineCmd.start, EngineCmd.stop] rfl rfl

/-! ## Claim C10 — minimum playback-rate magnitude -/

/-- Claim C10: the spawned rate `sign · max(0.1, |rate + fmMod|)` always
has magnitude at least 0.1; `fmMod` vanishes when `fmAmount = 0`; and
`processGrain` advances the read position by exactly the (unchanged)
playback rate, hence by at least 0.1 samples in magnitude while the
grain lives. -/
theorem C10_min_rate (rate fmAmount sinVal : ℚ) (reversed : Bool)
    (buf : List ℚ) (bufLen : Int) (g : Grain)
    (hg : 1/10 ≤ |g.playbackRate|) :
    1/10 ≤ |finalRateOf rate (fmModOf fmAmount sinVal) reversed| ∧
    fmModOf 0 sinVal = 0 ∧
    (processGrain buf bufLen g).2.2.position = g.position + g.playbackRate ∧
    (processGrain buf bufLen g).2.2.playbackRate = g.playbackRate ∧
    1/10 ≤ |(processGrain buf bufLen g).2.2.position - g.position| := by
  refine ⟨?_, by simp [fmModOf], rfl, rfl, ?_⟩
  · have hf : (1/10 : ℚ) ≤ max (1/10) |rate + fmModOf fmAmount sinVal| := le_max_left _ _
    have hf0 : (0:ℚ) ≤ max (1/10) |rate + fmModOf fmAmount sinVal| := by linarith
    have habs : |finalRateOf rate (fmModOf fmAmount sinVal) reversed|
        = max (1/10) |rate + fmModOf fmAmount sinVal| := by
      cases reversed with
      | false =>
        have he : finalRateOf rate (fmModOf fmAmount sinVal) false
            = max (1/10) |rate + fmModOf fmAmount sinVal| := by
          simp [finalRateOf]
        rw [he]
        exact abs_of_nonneg hf0
      | true =>
        have he : finalRateOf rate (fmModOf fmAmount sinVal) true
            = -(max (1/10) |rate + fmModOf fmAmount sinVal|) := by
          simp [finalRateOf]
        rw [he, abs_neg]
        exact abs_of_nonneg hf0
    rw [habs]
    exact hf
  · have : (processGrain buf bufLen g).2.2.position - g.position = g.playbackRate := by
      show g.position + g.playbackRate - g.position = g.playbackRate
      ring
    rw [this]
    exact hg

/-- Witness for C10 at concrete inputs (non-reversed grain with
`playbackRate = 1`). -/
theorem C10_min_rate_witness :
    (1/10 : ℚ) ≤ |({ zeroGrain with playbackRate := 1 } : Grain).playbackRate| ∧
    (1/10 : ℚ) ≤ |finalRateOf 1 (fmModOf 0 0) false| ∧
    1/10 ≤ |(processGrain [1] 1 { zeroGrain with playbackRate := 1 }).2.2.position
      - ({ zeroGrain with playbackRate := 1 } : Grain).position| :=
  ⟨by norm_num,
   (C10_min_rate 1 0 0 false [1] 1 { zeroGrain with playbackRate := 1 } (by norm_num)).1,
   (C10_min_rate 1 0 0 false [1] 1 { zeroGrain with playbackRate := 1 } (by norm_num)).2.2.2.2⟩

end NodeGrain
